import Mathlib

/-
Verification of the smartphone battery discharge model (src/model.py,
class SmartphoneBatteryModel) against its natural-language specification.

Shallow embedding conventions:
* Python floats are modeled as real numbers (ℝ).
* A Python dict "scenario" with optional keys is modeled as a structure of
  Option-valued fields; `dict.get(k, d)` becomes `Option.getD`.
* `np.sqrt` applied to a negative radicand yields NaN in the code; NaN is
  modeled as `none`, so `f_aging` returns `Option ℝ` and the SOC component
  of the derivative vector returns `Option ℝ`.
* `np.clip(x, 0, 5.0)` becomes `min (max x 0) 5`.
-/

namespace SmartphoneBatteryModel

/-- Nominal capacity Q0 (mAh). -/
def Q0 : ℝ := 4735.952

/-- Ohmic internal resistance (Ohm). -/
def R0 : ℝ := 0.05

/-- Electrochemical polarization resistance (Ohm). -/
def R1 : ℝ := 0.03

/-- Electrochemical polarization capacitance (F). -/
def C1 : ℝ := 2000.0

/-- Concentration polarization resistance (Ohm). -/
def R2 : ℝ := 0.02

/-- Concentration polarization capacitance (F). -/
def C2 : ℝ := 5000.0

/-- Time constant tau1 = R1 * C1. -/
def tau1 : ℝ := R1 * C1

/-- Time constant tau2 = R2 * C2. -/
def tau2 : ℝ := R2 * C2

/-- Activation energy (J/mol). -/
def Ea : ℝ := 35000.0

/-- Gas constant. -/
def R_gas : ℝ := 8.314

/-- Reference temperature (K). -/
def T_ref : ℝ := 298.15

/-- Thermal capacitance (J/K). -/
def C_th : ℝ := 200.0

/-- Convective heat-transfer coefficient (W/m2K). -/
def h : ℝ := 10.0

/-- Surface area (m2). -/
def A : ℝ := 0.01

/-- Aging-rate constant (h^-1). -/
def k_aging : ℝ := 5e-6

/-- CPU idle power (W). -/
def P_cpu_idle : ℝ := 0.1

/-- CPU coefficient. -/
def P_cpu_B : ℝ := 0.5

/-- CPU frequency. -/
def P_cpu_f : ℝ := 2

/-- Network idle power (W). -/
def P_net_idle : ℝ := 0.1

/-- Network incremental coefficient (W/Mbps). -/
def beta : ℝ := 0.1

/-- GPS power (W). -/
def P_gps : ℝ := 0.1

/-- Base power (W). -/
def P_base : ℝ := 0.05

/-- Screen refresh rate. -/
def P_refresh : ℝ := 60

/-- Screen area (dm2). -/
def P_screen_square : ℝ := 1.14

/-- Screen brightness coefficient. -/
def P_a : ℝ := 0.02

/-- Open-circuit voltage curve (OCV-SOC relation): cubic polynomial, unclamped. -/
def V_oc (SOC : ℝ) : ℝ :=
  3.39 + 2.65 * SOC - 11.11 * SOC ^ 2 + 24.973 * SOC ^ 3

/-- Second-order RC parameters as functions of SOC and temperature:
each nominal resistance is scaled by a temperature factor
`exp(0.01*(1/T - 1/T_ref))` and a SOC factor `1 + 0.5*(1 - SOC)`. -/
noncomputable def get_RC_params (SOC T : ℝ) : ℝ × ℝ × ℝ :=
  let T_effect := Real.exp (0.01 * (1 / T - 1 / T_ref))
  let SOC_effect := 1 + 0.5 * (1 - SOC)
  (R0 * SOC_effect * T_effect, R1 * SOC_effect * T_effect, R2 * SOC_effect * T_effect)

/-- Temperature capacity-correction factor `exp(Ea/R_gas * (1/T_ref - 1/T))`. -/
noncomputable def f_T (T : ℝ) : ℝ :=
  Real.exp (Ea / R_gas * (1 / T_ref - 1 / T))

/-- Aging capacity-correction factor `sqrt(1 - k_aging * t)`.
The source computes `np.sqrt(1 - k_aging*t)` with no guard; for a negative
radicand `np.sqrt` produces NaN, modeled here as `none`. -/
noncomputable def f_aging (t : ℝ) : Option ℝ :=
  if 0 ≤ 1 - k_aging * t then some (Real.sqrt (1 - k_aging * t)) else none

/-- Effective capacity `Q0 * f_T(T) * f_aging(t)`; `none` (NaN) propagates
from `f_aging` unguarded. -/
noncomputable def Q_eff (T t : ℝ) : Option ℝ :=
  (f_aging t).map (fun fa => Q0 * f_T T * fa)

/-- A load sample: the Python scenario dict with its optional keys modeled as
Option-valued fields. -/
structure Scenario where
  screen_on : Option Bool
  brightness : Option ℝ
  cpu_usage : Option ℝ
  data_rate : Option ℝ
  gps_on : Option Bool
  T_amb : Option ℝ

/-- Component power summation: sequential accumulation mirroring the source.
`scenario.get('brightness', 0.5)` becomes `Option.getD _ 0.5`. -/
def component_power (t : ℝ) (scenario : Scenario) : ℝ :=
  let power := P_base
  let power := match scenario.screen_on with
    | some so => if so = true then
        power + P_a * (scenario.brightness.getD 0.5) * P_refresh * P_screen_square
      else power
    | none => power
  let power := match scenario.cpu_usage with
    | some cpu_usage => power + (P_cpu_idle + cpu_usage * P_cpu_B * P_cpu_f ^ 3)
    | none => power
  let power := match scenario.data_rate with
    | some data_rate => power + (P_net_idle + beta * data_rate)
    | none => power
  let power := match scenario.gps_on with
    | some g => if g = true then power + P_gps else power
    | none => power
  power

/-- Current solver for the quadratic `R0*I^2 - V_eff*I + P_total = 0` with
`V_eff = V_oc - U1 - U2`.  In the source `a = R0`, `b = -V_eff`,
`c = P_total`, so `delta = b^2 - 4*a*c = V_eff^2 - 4*R0*P_total` and the
smaller root `(-b - sqrt(delta))/(2*a) = (V_eff - sqrt(delta))/(2*R0)`.
`np.clip(I, 0, 5.0)` is `min (max I 0) 5`. -/
noncomputable def solve_current (P_total voc U1 U2 R0 : ℝ) : ℝ :=
  let V_eff := voc - U1 - U2
  if V_eff ≤ 0.1 ∨ P_total ≤ 0 ∨ R0 ≤ 0 then 0
  else
    let delta := V_eff ^ 2 - 4 * R0 * P_total
    let I := if delta < 0 then V_eff / (2 * R0) else (V_eff - Real.sqrt delta) / (2 * R0)
    min (max I 0) 5

/-- The ODE right-hand side for the state `y = (SOC, T_batt, U1, U2)`.
Returns `(dSOC/dt, dT/dt, dU1/dt, dU2/dt)`.  The SOC component is
`Option ℝ` because it divides by `Q_eff`, which is NaN (`none`) when the
aging radicand is negative; all other components are NaN-free. -/
noncomputable def model_equations (t : ℝ) (y : ℝ × ℝ × ℝ × ℝ)
    (scenario_func : ℝ → Scenario) : Option ℝ × ℝ × ℝ × ℝ :=
  let SOC := y.1
  let T_batt := y.2.1
  let U1 := y.2.2.1
  let U2 := y.2.2.2
  if SOC ≤ 0 then (some 0, 0, 0, 0)
  else
    let scenario := scenario_func t
    let P_total := component_power t scenario
    let voc := V_oc SOC
    let RC := get_RC_params SOC T_batt
    let I_A := solve_current P_total voc U1 U2 RC.1
    let I_mA := I_A * 1000
    let dSOC := (Q_eff T_batt t).map (fun q => -I_mA / (q * 3600))
    let dU1 := (I_A * RC.2.1 - U1) / tau1
    let dU2 := (I_A * RC.2.2 - U2) / tau2
    let R_total := RC.1 + RC.2.1 + RC.2.2
    let P_heat := I_A ^ 2 * R_total
    let P_cool := h * A * (T_batt - scenario.T_amb.getD 298.15)
    let dT := (P_heat - P_cool) / C_th
    (dSOC, dT, dU1, dU2)

/-- First crossing of a threshold from above, scanning the tail of a
trajectory while remembering the previous sample: at the first value
`vi ≤ thresh` this yields the linearly interpolated crossing time when the
bracketing values differ by more than 1e-10, and `ti` otherwise. -/
noncomputable def crossTimeAux (thresh t_prev v_prev : ℝ) :
    List (ℝ × ℝ) → Option ℝ
  | [] => none
  | (ti, vi) :: rest =>
    if vi ≤ thresh then
      some (if 1e-10 < |vi - v_prev| then
          t_prev + (thresh - v_prev) / (vi - v_prev) * (ti - t_prev)
        else ti)
    else crossTimeAux thresh ti vi rest

/-- First-crossing detector over a `(time, value)` trajectory: the first
index with value ≤ thresh yields its time directly when it is index 0, and
otherwise the interpolated time via `crossTimeAux`.  This is the shared
shape of both stopping criteria of `find_empty_time`. -/
noncomputable def crossTime (thresh : ℝ) : List (ℝ × ℝ) → Option ℝ
  | [] => none
  | (t0, v0) :: rest =>
    if v0 ≤ thresh then some t0
    else crossTimeAux thresh t0 v0 rest

/-- Discharge-endpoint detector.  The trajectory is the list of
`(time, SOC)` samples (the temperature and polarization rows of the
solution are read but unused by the source).  Criterion 1: first SOC ≤
SOC_min; criterion 2: first open-circuit voltage `V_oc(SOC) ≤ V_cutoff`,
both with interpolation; the earlier wins; if neither triggers, the final
time point is returned (`none` only for an empty trajectory, where the
source would fault on `t[-1]`). -/
noncomputable def find_empty_time (traj : List (ℝ × ℝ))
    (V_cutoff : ℝ := 2.5) (SOC_min : ℝ := 0.05) : Option ℝ :=
  let t_soc_empty := crossTime SOC_min traj
  let t_voltage_cutoff := crossTime V_cutoff (traj.map (fun p => (p.1, V_oc p.2)))
  match t_soc_empty, t_voltage_cutoff with
  | some a, some b => some (min a b)
  | some a, none => some a
  | none, some b => some b
  | none, none => (traj.map Prod.fst).getLast?

/-- Terminal voltage accessor `V_oc - I*R0 - U1 - U2` with the
temperature/SOC-adjusted R0. -/
noncomputable def get_terminal_voltage (SOC T_batt U1 U2 I_A : ℝ) : ℝ :=
  V_oc SOC - I_A * (get_RC_params SOC T_batt).1 - U1 - U2

/-- The solver output always lies in the clamp interval [0, 5]. -/
theorem solve_current_mem (P_total voc U1 U2 R0 : ℝ) :
    0 ≤ solve_current P_total voc U1 U2 R0 ∧ solve_current P_total voc U1 U2 R0 ≤ 5 := by
  simp only [solve_current]
  split
  · norm_num
  · exact ⟨le_min (le_max_right _ _) (by norm_num), min_le_right _ _⟩

/-- C1: in the non-degenerate regime (V_eff > 0.1, positive power, positive
R0) the returned current is the smaller quadratic root
`(V_eff - sqrt(delta))/(2*R0)` clamped to [0, 5] when the discriminant is
non-negative, and the tangent current `V_eff/(2*R0)` clamped to [0, 5] when
it is negative; for every input whatsoever the result lies in [0, 5]. -/
theorem solve_current_formula_c1 :
    (∀ P_total voc U1 U2 R0 : ℝ,
      0.1 < voc - U1 - U2 → 0 < P_total → 0 < R0 →
      (0 ≤ (voc - U1 - U2) ^ 2 - 4 * R0 * P_total →
        solve_current P_total voc U1 U2 R0 =
          min (max ((voc - U1 - U2 -
            Real.sqrt ((voc - U1 - U2) ^ 2 - 4 * R0 * P_total)) / (2 * R0)) 0) 5) ∧
      ((voc - U1 - U2) ^ 2 - 4 * R0 * P_total < 0 →
        solve_current P_total voc U1 U2 R0 =
          min (max ((voc - U1 - U2) / (2 * R0)) 0) 5)) ∧
    (∀ P_total voc U1 U2 R0 : ℝ,
      0 ≤ solve_current P_total voc U1 U2 R0 ∧ solve_current P_total voc U1 U2 R0 ≤ 5) := by
  constructor
  · intro P_total voc U1 U2 R0 hV hP hR
    have hguard : ¬(voc - U1 - U2 ≤ 0.1 ∨ P_total ≤ 0 ∨ R0 ≤ 0) := by
      push_neg
      exact ⟨hV, hP, hR⟩
    constructor
    · intro hd
      simp only [solve_current, if_neg hguard, if_neg (not_lt.mpr hd)]
    · intro hd
      simp only [solve_current, if_neg hguard, if_pos hd]
  · exact solve_current_mem

/-- Witness for C1: at P_total = 4, V_oc = 3, U1 = U2 = 0, R0 = 0.5 the
discriminant is 9 - 8 = 1 and the clamped smaller root is (3 - 1)/1 = 2. -/
theorem solve_current_formula_c1_witness : solve_current 4 3 0 0 0.5 = 2 := by
  have hd : (0 : ℝ) ≤ ((3 : ℝ) - 0 - 0) ^ 2 - 4 * 0.5 * 4 := by norm_num
  have hmain := (solve_current_formula_c1.1 4 3 0 0 0.5 (by norm_num) (by norm_num)
    (by norm_num)).1 hd
  rw [hmain, show ((3 : ℝ) - 0 - 0) ^ 2 - 4 * 0.5 * 4 = 1 by norm_num, Real.sqrt_one]
  norm_num

/-- C2: each degenerate trigger (V_eff ≤ 0.1, non-positive power or
non-positive R0) is on its own sufficient for the solver to return
exactly 0, for arbitrary values of the other arguments. -/
theorem solve_current_degenerate_c2 (P_total voc U1 U2 R0 : ℝ)
    (hcase : voc - U1 - U2 ≤ 0.1 ∨ P_total ≤ 0 ∨ R0 ≤ 0) :
    solve_current P_total voc U1 U2 R0 = 0 := by
  simp only [solve_current, if_pos hcase]

/-- Witness for C2: the three triggers independently, each with the other
arguments non-degenerate. -/
theorem solve_current_degenerate_c2_witness :
    solve_current 1 0.1 0 0 1 = 0 ∧ solve_current (-1) 3 0 0 1 = 0 ∧
      solve_current 1 3 0 0 (-1) = 0 :=
  ⟨solve_current_degenerate_c2 1 0.1 0 0 1 (Or.inl (by norm_num)),
   solve_current_degenerate_c2 (-1) 3 0 0 1 (Or.inr (Or.inl (by norm_num))),
   solve_current_degenerate_c2 1 3 0 0 (-1) (Or.inr (Or.inr (by norm_num)))⟩

/-- C5: the component power is the sum of the base power and one additive
term per present key (screen term only when screen_on is present and true,
CPU term when cpu_usage is present, network term when data_rate is present,
GPS term when gps_on is present and true); any absent key contributes
exactly zero. -/
theorem component_power_sum_c5 (t : ℝ) (s : Scenario) :
    component_power t s =
      P_base
      + (if s.screen_on = some true then
          P_a * s.brightness.getD 0.5 * P_refresh * P_screen_square else 0)
      + (if s.cpu_usage.isSome then
          P_cpu_idle + s.cpu_usage.getD 0 * P_cpu_B * P_cpu_f ^ 3 else 0)
      + (if s.data_rate.isSome then P_net_idle + beta * s.data_rate.getD 0 else 0)
      + (if s.gps_on = some true then P_gps else 0) := by
  obtain ⟨so, br, cu, dr, gp, ta⟩ := s
  rcases so with _ | (_ | _) <;> rcases cu with _ | cu <;> rcases dr with _ | dr <;>
    rcases gp with _ | (_ | _) <;> simp [component_power]

/-- C9: when screen_on is present and true but brightness is absent, the
power is computed as if brightness were 0.5. -/
theorem component_power_brightness_default_c9 (t : ℝ) (s : Scenario)
    (hscr : s.screen_on = some true) (hbr : s.brightness = none) :
    component_power t s = component_power t { s with brightness := some 0.5 } := by
  simp [component_power, hscr, hbr]

/-- Witness for C9: a concrete scenario with the screen on and no
brightness key. -/
theorem component_power_brightness_default_c9_witness :
    component_power 0 ⟨some true, none, none, none, none, none⟩ =
      component_power 0 ⟨some true, some 0.5, none, none, none, none⟩ :=
  component_power_brightness_default_c9 0 ⟨some true, none, none, none, none, none⟩ rfl rfl

/-- C3: with SOC ≤ 0 the derivative is the all-zero vector, for every time,
every load scenario, and every value of the other state components; the
scenario function is never consulted (the result is the same constant for
any two scenario functions). -/
theorem model_equations_frozen_c3 :
    (∀ (t : ℝ) (y : ℝ × ℝ × ℝ × ℝ) (scenario_func : ℝ → Scenario),
      y.1 ≤ 0 → model_equations t y scenario_func = (some 0, 0, 0, 0)) ∧
    (∀ (t : ℝ) (y : ℝ × ℝ × ℝ × ℝ) (sf₁ sf₂ : ℝ → Scenario),
      y.1 ≤ 0 → model_equations t y sf₁ = model_equations t y sf₂) := by
  have base : ∀ (t : ℝ) (y : ℝ × ℝ × ℝ × ℝ) (sf : ℝ → Scenario),
      y.1 ≤ 0 → model_equations t y sf = (some 0, 0, 0, 0) := by
    intro t y sf hsoc
    simp only [model_equations, if_pos hsoc]
  exact ⟨base, fun t y sf₁ sf₂ hy => (base t y sf₁ hy).trans (base t y sf₂ hy).symm⟩

/-- Witness for C3: the empty battery state at a concrete time and
scenario. -/
theorem model_equations_frozen_c3_witness :
    model_equations 0 (0, 300, 0, 0) (fun _ => ⟨none, none, none, none, none, none⟩) =
      (some 0, 0, 0, 0) :=
  model_equations_frozen_c3.1 0 (0, 300, 0, 0) _ le_rfl

/-- C4: while the aging radicand is positive and SOC and temperature are
positive, the SOC component of the derivative is defined (not NaN) and
non-positive: it is -(I*1000)/(Q_eff*3600) with I ≥ 0 and Q_eff > 0. -/
theorem model_equations_soc_nonincreasing_c4 (t SOC T_batt U1 U2 : ℝ)
    (scenario_func : ℝ → Scenario)
    (hage : 0 < 1 - k_aging * t) (hsoc : 0 < SOC) (hT : 0 < T_batt) :
    ∃ d, (model_equations t (SOC, T_batt, U1, U2) scenario_func).1 = some d ∧ d ≤ 0 := by
  have hnot : ¬SOC ≤ 0 := not_le.mpr hsoc
  have hq : f_aging t = some (Real.sqrt (1 - k_aging * t)) := by
    simp only [f_aging, if_pos hage.le]
  refine ⟨-(solve_current (component_power t (scenario_func t)) (V_oc SOC) U1 U2
      (get_RC_params SOC T_batt).1 * 1000) /
      (Q0 * f_T T_batt * Real.sqrt (1 - k_aging * t) * 3600), ?_, ?_⟩
  · simp only [model_equations, if_neg hnot, Q_eff, hq, Option.map_some']
  · have hI : 0 ≤ solve_current (component_power t (scenario_func t)) (V_oc SOC) U1 U2
        (get_RC_params SOC T_batt).1 := (solve_current_mem _ _ _ _ _).1
    have hnum : -(solve_current (component_power t (scenario_func t)) (V_oc SOC) U1 U2
        (get_RC_params SOC T_batt).1 * 1000) ≤ 0 :=
      neg_nonpos.mpr (mul_nonneg hI (by norm_num))
    have hfT : 0 < f_T T_batt := by
      simp only [f_T]
      exact Real.exp_pos _
    have hden : 0 ≤ Q0 * f_T T_batt * Real.sqrt (1 - k_aging * t) * 3600 :=
      mul_nonneg (mul_nonneg (mul_nonneg (by norm_num [Q0]) hfT.le)
        (Real.sqrt_nonneg _)) (by norm_num)
    exact div_nonpos_of_nonpos_of_nonneg hnum hden

/-- Witness for C4: fresh battery at t = 0, SOC = 1, ambient reference
temperature, no polarization, empty scenario. -/
theorem model_equations_soc_nonincreasing_c4_witness :
    ∃ d, (model_equations 0 (1, 298.15, 0, 0)
      (fun _ => ⟨none, none, none, none, none, none⟩)).1 = some d ∧ d ≤ 0 :=
  model_equations_soc_nonincreasing_c4 0 1 298.15 0 0 _
    (by norm_num [k_aging]) (by norm_num) (by norm_num)

/-- C8: the aging factor is not guarded in the source: at t = 400000 the
radicand 1 - k_aging*t equals -1, `np.sqrt` yields NaN (modeled `none`),
and the NaN propagates into the effective capacity. -/
theorem f_aging_unguarded_c8 :
    f_aging 400000 = none ∧ Q_eff 298.15 400000 = none := by
  have hneg : ¬(0 : ℝ) ≤ 1 - k_aging * 400000 := by norm_num [k_aging]
  constructor
  · simp only [f_aging, if_neg hneg]
  · simp only [Q_eff, f_aging, if_neg hneg, Option.map_none']

/-- Scanning helper: when every value before a bracketing pair stays above
the threshold and the pair brackets the first crossing, `crossTimeAux`
yields the interpolated time (or the crossing sample's time when the pair
is flat to within 1e-10). -/
theorem crossTimeAux_first_cross (thresh : ℝ) (pre : List (ℝ × ℝ)) :
    ∀ (ta va tp vp ti vi : ℝ) (rest : List (ℝ × ℝ)),
      (∀ p ∈ pre, thresh < p.2) → thresh < vp → vi ≤ thresh →
      crossTimeAux thresh ta va (pre ++ (tp, vp) :: (ti, vi) :: rest) =
        some (if 1e-10 < |vi - vp| then
            tp + (thresh - vp) / (vi - vp) * (ti - tp)
          else ti) := by
  induction pre with
  | nil =>
    intro ta va tp vp ti vi rest hpre hvp hvi
    simp only [List.nil_append, crossTimeAux, if_neg (not_le.mpr hvp), if_pos hvi]
  | cons hd tl ih =>
    intro ta va tp vp ti vi rest hpre hvp hvi
    obtain ⟨ta', va'⟩ := hd
    have hva' : thresh < va' := hpre (ta', va') (List.mem_cons_self _ _)
    simp only [List.cons_append, crossTimeAux, if_neg (not_le.mpr hva')]
    exact ih ta' va' tp vp ti vi rest (fun p hp => hpre p (List.mem_cons_of_mem _ hp)) hvp hvi

/-- C6: whenever the first sample at or below the threshold occurs at an
index i > 0, the SOC criterion yields the linearly interpolated crossing
time when the bracketing values differ by more than 1e-10 and the crossing
sample's own time when they are flat; in particular SOC values
[0.06, 0.04] at times [100, 110] with threshold 0.05 yield exactly 105. -/
theorem crossTime_interpolation_c6 :
    (∀ (thresh tp vp ti vi : ℝ) (pre rest : List (ℝ × ℝ)),
      (∀ p ∈ pre, thresh < p.2) → thresh < vp → vi ≤ thresh →
      crossTime thresh (pre ++ (tp, vp) :: (ti, vi) :: rest) =
        some (if 1e-10 < |vi - vp| then
            tp + (thresh - vp) / (vi - vp) * (ti - tp)
          else ti)) ∧
    crossTime 0.05 [(100, 0.06), (110, 0.04)] = some 105 := by
  have gen : ∀ (thresh tp vp ti vi : ℝ) (pre rest : List (ℝ × ℝ)),
      (∀ p ∈ pre, thresh < p.2) → thresh < vp → vi ≤ thresh →
      crossTime thresh (pre ++ (tp, vp) :: (ti, vi) :: rest) =
        some (if 1e-10 < |vi - vp| then
            tp + (thresh - vp) / (vi - vp) * (ti - tp)
          else ti) := by
    intro thresh tp vp ti vi pre rest hpre hvp hvi
    cases pre with
    | nil =>
      simp only [List.nil_append, crossTime, if_neg (not_le.mpr hvp)]
      simp only [crossTimeAux, if_pos hvi]
    | cons hd tl =>
      obtain ⟨ta', va'⟩ := hd
      have hva' : thresh < va' := hpre (ta', va') (List.mem_cons_self _ _)
      simp only [List.cons_append, crossTime, if_neg (not_le.mpr hva')]
      exact crossTimeAux_first_cross thresh tl ta' va' tp vp ti vi rest
        (fun p hp => hpre p (List.mem_cons_of_mem _ hp)) hvp hvi
  refine ⟨gen, ?_⟩
  norm_num [crossTime, crossTimeAux, abs_of_nonneg]

/-- Witness for C6: the general interpolation law applied to the concrete
two-sample trajectory of the claim. -/
theorem crossTime_interpolation_c6_witness :
    crossTime 0.05 ([] ++ (100, 0.06) :: (110, 0.04) :: []) =
      some (if 1e-10 < |(0.04 : ℝ) - 0.06| then
          100 + (0.05 - 0.06) / (0.04 - 0.06) * (110 - 100)
        else 110) :=
  crossTime_interpolation_c6.1 0.05 100 0.06 110 0.04 [] []
    (by simp) (by norm_num) (by norm_num)

/-- The no-trigger trajectory [(100, 0.5), (110, 0.4)] never crosses the
SOC threshold 0.05. -/
theorem crossTime_soc_none_high : crossTime 0.05 [(100, 0.5), (110, 0.4)] = none := by
  norm_num [crossTime, crossTimeAux]

/-- The no-trigger trajectory [(100, 0.5), (110, 0.4)] never crosses the
open-circuit-voltage cutoff 2.5. -/
theorem crossTime_voc_none_high :
    crossTime 2.5 ([((100 : ℝ), (0.5 : ℝ)), (110, 0.4)].map (fun p => (p.1, V_oc p.2))) =
      none := by
  norm_num [crossTime, crossTimeAux, V_oc]

/-- C7 counterexample: a trajectory whose SOC criterion detects a true
endpoint at exactly the final time (interpolation lands on t[-1] because
the last SOC sample equals SOC_min) returns the same bare scalar as a
trajectory that never triggers either criterion and merely runs out of
horizon, so the no-endpoint outcome is not distinguishable by the caller. -/
theorem find_empty_time_indistinguishable_c7_counterexample :
    find_empty_time [(100, 0.06), (110, 0.05)] 2.5 0.05 = some 110 ∧
    find_empty_time [(100, 0.5), (110, 0.4)] 2.5 0.05 = some 110 ∧
    crossTime 0.05 [(100, 0.06), (110, 0.05)] = some 110 ∧
    crossTime 0.05 [(100, 0.5), (110, 0.4)] = none ∧
    crossTime 2.5 ([((100 : ℝ), (0.5 : ℝ)), (110, 0.4)].map (fun p => (p.1, V_oc p.2))) =
      none := by
  have hsoc1 : crossTime 0.05 [(100, 0.06), (110, 0.05)] = some 110 := by
    norm_num [crossTime, crossTimeAux, abs_of_nonneg]
  have hvoc1 : crossTime 2.5 ([((100 : ℝ), (0.06 : ℝ)), (110, 0.05)].map
      (fun p => (p.1, V_oc p.2))) = none := by
    norm_num [crossTime, crossTimeAux, V_oc]
  refine ⟨?_, ?_, hsoc1, crossTime_soc_none_high, crossTime_voc_none_high⟩
  · simp only [find_empty_time, hsoc1, hvoc1]
  · simp only [find_empty_time, crossTime_soc_none_high, crossTime_voc_none_high]
    simp

/-- C7 (amended): the detector returns the minimum over whichever of the
two criteria yields a result and the trajectory's final time point when
neither triggers; the no-trigger outcome is returned as a bare time with
no flag (and is therefore not distinguishable from a detected endpoint in
general, see the counterexample). -/
theorem find_empty_time_combine_c7 (traj : List (ℝ × ℝ)) (V_cutoff SOC_min : ℝ) :
    (∀ a b, crossTime SOC_min traj = some a →
      crossTime V_cutoff (traj.map (fun p => (p.1, V_oc p.2))) = some b →
      find_empty_time traj V_cutoff SOC_min = some (min a b)) ∧
    (∀ a, crossTime SOC_min traj = some a →
      crossTime V_cutoff (traj.map (fun p => (p.1, V_oc p.2))) = none →
      find_empty_time traj V_cutoff SOC_min = some a) ∧
    (∀ b, crossTime SOC_min traj = none →
      crossTime V_cutoff (traj.map (fun p => (p.1, V_oc p.2))) = some b →
      find_empty_time traj V_cutoff SOC_min = some b) ∧
    (crossTime SOC_min traj = none →
      crossTime V_cutoff (traj.map (fun p => (p.1, V_oc p.2))) = none →
      find_empty_time traj V_cutoff SOC_min = (traj.map Prod.fst).getLast?) := by
  refine ⟨?_, ?_, ?_, ?_⟩
  · intro a b h1 h2
    simp only [find_empty_time, h1, h2]
  · intro a h1 h2
    simp only [find_empty_time, h1, h2]
  · intro b h1 h2
    simp only [find_empty_time, h1, h2]
  · intro h1 h2
    simp only [find_empty_time, h1, h2]

/-- Witness for C7: the no-trigger trajectory falls through to the final
time point. -/
theorem find_empty_time_combine_c7_witness :
    find_empty_time [(100, 0.5), (110, 0.4)] 2.5 0.05 =
      ([((100 : ℝ), (0.5 : ℝ)), (110, 0.4)].map Prod.fst).getLast? :=
  (find_empty_time_combine_c7 [(100, 0.5), (110, 0.4)] 2.5 0.05).2.2.2
    crossTime_soc_none_high crossTime_voc_none_high

/-- C10: a trajectory whose very first sample already satisfies a stopping
criterion yields that first time point with no interpolation, for the SOC
criterion and for the voltage criterion alike; the returned empty time can
therefore equal the trajectory's start time, as on the one-sample
trajectory [(100, 0.04)]. -/
theorem crossTime_first_sample_c10 :
    (∀ (thresh t0 v0 : ℝ) (rest : List (ℝ × ℝ)), v0 ≤ thresh →
      crossTime thresh ((t0, v0) :: rest) = some t0) ∧
    (∀ (V_cutoff t0 s0 : ℝ) (rest : List (ℝ × ℝ)), V_oc s0 ≤ V_cutoff →
      crossTime V_cutoff (((t0, s0) :: rest).map (fun p => (p.1, V_oc p.2))) = some t0) ∧
    find_empty_time [(100, 0.04)] 2.5 0.05 = some 100 := by
  have first : ∀ (thresh t0 v0 : ℝ) (rest : List (ℝ × ℝ)), v0 ≤ thresh →
      crossTime thresh ((t0, v0) :: rest) = some t0 := by
    intro thresh t0 v0 rest hv
    simp only [crossTime, if_pos hv]
  refine ⟨first, ?_, ?_⟩
  · intro V_cutoff t0 s0 rest hv
    simp only [List.map_cons]
    exact first V_cutoff t0 (V_oc s0) _ hv
  · have hsoc : crossTime 0.05 [(100, 0.04)] = some 100 := by
      norm_num [crossTime]
    have hvoc : crossTime 2.5 ([((100 : ℝ), (0.04 : ℝ))].map (fun p => (p.1, V_oc p.2))) =
        none := by
      norm_num [crossTime, crossTimeAux, V_oc]
    simp only [find_empty_time, hsoc, hvoc]

/-- Witness for C10: the SOC criterion on a trajectory that starts at or
below the threshold. -/
theorem crossTime_first_sample_c10_witness :
    crossTime 0.05 ((100, 0.04) :: [(200, 0.03)]) = some 100 :=
  crossTime_first_sample_c10.1 0.05 100 0.04 [(200, 0.03)] (by norm_num)

end SmartphoneBatteryModel
